import Mathlib

/-!
Verification development for a local-network throughput benchmarking tool
consisting of a server (`server.py`) and a client (`client.py`).

The server periodically broadcasts a discovery Offer over UDP, answers UDP
Request messages by streaming numbered Payload segments, and answers TCP
connections by sending a requested number of bytes.  The client listens for
an Offer, then runs concurrent TCP and UDP download workers and aggregates
per-worker results.

Bytes are modelled as `Nat` values (each `< 256` where produced by the
encoders); byte buffers are `List Nat`.  Big-endian multi-byte integers are
produced by `toBE` and consumed by `readBE`, matching Python's
`struct.pack`/`struct.unpack_from` with `!`-prefixed format strings.
Request lines on the TCP path are modelled as `List Char` together with a
faithful model of Python's `str.strip` and `int()` parsing.  Durations and
throughput values are modelled as rationals.
-/

namespace ClientServer

/-! ### Protocol constants (identical in `server.py` and `client.py`) -/

def MAGIC_COOKIE : Nat := 0xabcddcba

def MSG_TYPE_OFFER : Nat := 0x2

def MSG_TYPE_REQUEST : Nat := 0x3

def MSG_TYPE_PAYLOAD : Nat := 0x4

/-- Server constant `CHUNK_SIZE = 1024`: both the TCP send-chunk bound and the
UDP segment size. -/
def CHUNK_SIZE : Nat := 1024

/-! ### Big-endian byte serialization (model of `struct.pack`/`unpack_from`) -/

/-- Big-endian encoding of `n` into exactly `k` bytes (`struct.pack` of an
unsigned field of width `k`, value taken modulo `256^k`). -/
def toBE : Nat → Nat → List Nat
  | 0, _ => []
  | k + 1, n => toBE k (n / 256) ++ [n % 256]

/-- Big-endian reading of a byte list as an unsigned integer
(`struct.unpack_from` of an unsigned field). -/
def readBE (l : List Nat) : Nat :=
  l.foldl (fun acc b => acc * 256 + b) 0

/-- The `len`-byte field of buffer `data` starting at byte offset `off`
(the slice `struct.unpack_from` reads). -/
def fieldBytes (data : List Nat) (off len : Nat) : List Nat :=
  (data.drop off).take len

theorem toBE_length (k n : Nat) : (toBE k n).length = k := by
  induction k generalizing n with
  | zero => rfl
  | succ k ih => simp [toBE, ih]

theorem readBE_go (l : List Nat) (acc : Nat) :
    l.foldl (fun acc b => acc * 256 + b) acc =
      acc * 256 ^ l.length + readBE l := by
  induction l generalizing acc with
  | nil => simp [readBE]
  | cons b l ih =>
    simp only [List.foldl_cons, List.length_cons, readBE]
    rw [ih (acc * 256 + b), ih (0 * 256 + b)]
    ring

theorem readBE_toBE (k n : Nat) : readBE (toBE k n) = n % 256 ^ k := by
  induction k generalizing n with
  | zero => simp [toBE, readBE, Nat.mod_one]
  | succ k ih =>
    show readBE (toBE k (n / 256) ++ [n % 256]) = n % 256 ^ (k + 1)
    rw [readBE, List.foldl_append]
    show (readBE (toBE k (n / 256))) * 256 + n % 256 = n % 256 ^ (k + 1)
    rw [ih]
    have h : n % (256 * 256 ^ k) = n % 256 + 256 * (n / 256 % 256 ^ k) :=
      Nat.mod_mul
    have hp : (256 : Nat) ^ (k + 1) = 256 * 256 ^ k := by
      rw [pow_succ]; ring
    rw [hp, h]; ring

theorem readBE_toBE_of_lt (k n : Nat) (h : n < 256 ^ k) :
    readBE (toBE k n) = n := by
  rw [readBE_toBE, Nat.mod_eq_of_lt h]

/-! ### Wire encoders (source: `struct.pack` call sites) -/

/-- Offer packet built in `broadcast_offers`
(`struct.pack("!IBHH", MAGIC_COOKIE, MSG_TYPE_OFFER, udp_port, tcp_port)`). -/
def encodeOffer (udpPort tcpPort : Nat) : List Nat :=
  toBE 4 MAGIC_COOKIE ++ [MSG_TYPE_OFFER] ++ toBE 2 udpPort ++ toBE 2 tcpPort

/-- Request packet built in `udp_download_worker`
(`struct.pack("!IBQ", MAGIC_COOKIE, MSG_TYPE_REQUEST, file_size)`). -/
def encodeRequest (fileSize : Nat) : List Nat :=
  toBE 4 MAGIC_COOKIE ++ [MSG_TYPE_REQUEST] ++ toBE 8 fileSize

/-- Payload packet built in `handle_udp_request`: the
`struct.pack("!IBQQ", ...)` header followed by the payload slice. -/
def encodePayload (totalSegments segIdx : Nat) (payload : List Nat) :
    List Nat :=
  toBE 4 MAGIC_COOKIE ++ [MSG_TYPE_PAYLOAD] ++ toBE 8 totalSegments ++
    toBE 8 segIdx ++ payload

/-! ### Wire decoders (source: the three receive loops)

Each decoder mirrors one receive path: length guard first, then a combined
magic/type check, then field extraction — exactly the order of the source. -/

/-- Offer decoding in the client's discovery loop (`client.py` `main`):
`len(data) < 9` is skipped, then magic and type are checked, then the two
ports are read from offset 5. -/
def decodeOffer (data : List Nat) : Option (Nat × Nat) :=
  if data.length < 9 then none
  else if readBE (fieldBytes data 0 4) = MAGIC_COOKIE ∧
      readBE (fieldBytes data 4 1) = MSG_TYPE_OFFER then
    some (readBE (fieldBytes data 5 2), readBE (fieldBytes data 7 2))
  else none

/-- Request decoding in the server's dispatch loop (`server.py` `main`):
`len(data) < 13` is skipped, then magic and type are checked, then the
file size is read from offset 5. -/
def decodeRequest (data : List Nat) : Option Nat :=
  if data.length < 13 then none
  else if readBE (fieldBytes data 0 4) = MAGIC_COOKIE ∧
      readBE (fieldBytes data 4 1) = MSG_TYPE_REQUEST then
    some (readBE (fieldBytes data 5 8))
  else none

/-- Payload decoding in `udp_download_worker`: `len(data) < 21` is skipped,
then magic and type are checked, then `total_segments`, `segment_index` and
the payload `data[21:]` are extracted. -/
def decodePayload (data : List Nat) : Option (Nat × Nat × List Nat) :=
  if data.length < 21 then none
  else if readBE (fieldBytes data 0 4) = MAGIC_COOKIE ∧
      readBE (fieldBytes data 4 1) = MSG_TYPE_PAYLOAD then
    some (readBE (fieldBytes data 5 8), readBE (fieldBytes data 13 8),
      data.drop 21)
  else none

/-! ### UDP Segmented Transfer Responder (`server.py` `handle_udp_request`)

The source uses the module constant `CHUNK_SIZE`; the embedding abstracts it
as the `chunkSize` argument and is instantiated at `CHUNK_SIZE` where the
concrete server is meant. -/

/-- Number of segments computed by `handle_udp_request`:
`(file_size + CHUNK_SIZE - 1) // CHUNK_SIZE`. -/
def totalSegmentsFor (chunkSize fileSize : Nat) : Nat :=
  (fileSize + chunkSize - 1) / chunkSize

/-- The datagrams sent by `handle_udp_request` on the error-free path: for
each `seg_idx` in `range(total_segments)` one packet whose payload is
`dummy_data[:payload_size]` with
`payload_size = min(CHUNK_SIZE, file_size - seg_idx*CHUNK_SIZE)` and
`dummy_data = b"B" * CHUNK_SIZE` (byte 66). -/
def handle_udp_request (chunkSize fileSize : Nat) : List (List Nat) :=
  let totalSegments := totalSegmentsFor chunkSize fileSize
  (List.range totalSegments).map fun segIdx =>
    encodePayload totalSegments segIdx
      (List.replicate (min chunkSize (fileSize - segIdx * chunkSize)) 66)

/-! ### Decode/encode round trips -/

theorem fieldBytes_middle (l1 l2 l3 : List Nat) :
    fieldBytes (l1 ++ (l2 ++ l3)) l1.length l2.length = l2 := by
  rw [fieldBytes, List.drop_left, List.take_left]

theorem fieldBytes_middle' (l1 l2 l3 : List Nat) (n k : Nat)
    (hn : l1.length = n) (hk : l2.length = k) :
    fieldBytes (l1 ++ (l2 ++ l3)) n k = l2 := by
  subst hn; subst hk; exact fieldBytes_middle l1 l2 l3

theorem readBE_magic : readBE (toBE 4 MAGIC_COOKIE) = MAGIC_COOKIE :=
  readBE_toBE_of_lt 4 _ (by norm_num [MAGIC_COOKIE])

theorem readBE_singleton (b : Nat) : readBE [b] = b := by
  simp [readBE]

theorem encodePayload_length (total idx : Nat) (payload : List Nat) :
    (encodePayload total idx payload).length = 21 + payload.length := by
  simp only [encodePayload, List.length_append, toBE_length,
    List.length_cons, List.length_nil]

theorem decodePayload_encodePayload (total idx : Nat) (payload : List Nat)
    (h1 : total < 2 ^ 64) (h2 : idx < 2 ^ 64) :
    decodePayload (encodePayload total idx payload) =
      some (total, idx, payload) := by
  have h256 : (256 : Nat) ^ 8 = 2 ^ 64 := by norm_num
  have hT : readBE (toBE 8 total) = total :=
    readBE_toBE_of_lt 8 _ (by rw [h256]; exact h1)
  have hI : readBE (toBE 8 idx) = idx :=
    readBE_toBE_of_lt 8 _ (by rw [h256]; exact h2)
  have len : (encodePayload total idx payload).length = 21 + payload.length :=
    encodePayload_length total idx payload
  have e0 : encodePayload total idx payload =
      [] ++ (toBE 4 MAGIC_COOKIE ++
        ([MSG_TYPE_PAYLOAD] ++ (toBE 8 total ++ (toBE 8 idx ++ payload)))) := by
    simp [encodePayload]
  have f0 : fieldBytes (encodePayload total idx payload) 0 4 =
      toBE 4 MAGIC_COOKIE := by
    rw [e0]; exact fieldBytes_middle' _ _ _ 0 4 rfl (toBE_length 4 _)
  have e4 : encodePayload total idx payload =
      toBE 4 MAGIC_COOKIE ++
        ([MSG_TYPE_PAYLOAD] ++ (toBE 8 total ++ (toBE 8 idx ++ payload))) := by
    simp [encodePayload]
  have f4 : fieldBytes (encodePayload total idx payload) 4 1 =
      [MSG_TYPE_PAYLOAD] := by
    rw [e4]; exact fieldBytes_middle' _ _ _ 4 1 (toBE_length 4 _) rfl
  have e5 : encodePayload total idx payload =
      (toBE 4 MAGIC_COOKIE ++ [MSG_TYPE_PAYLOAD]) ++
        (toBE 8 total ++ (toBE 8 idx ++ payload)) := by
    simp [encodePayload]
  have f5 : fieldBytes (encodePayload total idx payload) 5 8 =
      toBE 8 total := by
    rw [e5]
    exact fieldBytes_middle' _ _ _ 5 8
      (by simp only [List.length_append, toBE_length, List.length_cons,
        List.length_nil]) (toBE_length 8 _)
  have e13 : encodePayload total idx payload =
      (toBE 4 MAGIC_COOKIE ++ [MSG_TYPE_PAYLOAD] ++ toBE 8 total) ++
        (toBE 8 idx ++ payload) := by
    simp [encodePayload]
  have f13 : fieldBytes (encodePayload total idx payload) 13 8 =
      toBE 8 idx := by
    rw [e13]
    exact fieldBytes_middle' _ _ _ 13 8
      (by simp only [List.length_append, toBE_length, List.length_cons,
        List.length_nil]) (toBE_length 8 _)
  have e21 : encodePayload total idx payload =
      (toBE 4 MAGIC_COOKIE ++ [MSG_TYPE_PAYLOAD] ++ toBE 8 total ++
        toBE 8 idx) ++ payload := by
    simp [encodePayload]
  have f21 : (encodePayload total idx payload).drop 21 = payload := by
    rw [e21]
    exact List.drop_left' (by simp only [List.length_append, toBE_length,
      List.length_cons, List.length_nil])
  rw [decodePayload, if_neg (by omega)]
  rw [f0, f4, readBE_magic, readBE_singleton, if_pos ⟨rfl, rfl⟩, f5, f13,
    hT, hI, f21]

theorem decodeOffer_encodeOffer (udpPort tcpPort : Nat)
    (hu : udpPort < 2 ^ 16) (ht : tcpPort < 2 ^ 16) :
    decodeOffer (encodeOffer udpPort tcpPort) = some (udpPort, tcpPort) := by
  have h256 : (256 : Nat) ^ 2 = 2 ^ 16 := by norm_num
  have hU : readBE (toBE 2 udpPort) = udpPort :=
    readBE_toBE_of_lt 2 _ (by rw [h256]; exact hu)
  have hT : readBE (toBE 2 tcpPort) = tcpPort :=
    readBE_toBE_of_lt 2 _ (by rw [h256]; exact ht)
  have len : (encodeOffer udpPort tcpPort).length = 9 := by
    simp only [encodeOffer, List.length_append, toBE_length,
      List.length_cons, List.length_nil]
  have e0 : encodeOffer udpPort tcpPort =
      [] ++ (toBE 4 MAGIC_COOKIE ++
        ([MSG_TYPE_OFFER] ++ (toBE 2 udpPort ++ toBE 2 tcpPort))) := by
    simp [encodeOffer]
  have f0 : fieldBytes (encodeOffer udpPort tcpPort) 0 4 =
      toBE 4 MAGIC_COOKIE := by
    rw [e0]; exact fieldBytes_middle' _ _ _ 0 4 rfl (toBE_length 4 _)
  have e4 : encodeOffer udpPort tcpPort =
      toBE 4 MAGIC_COOKIE ++
        ([MSG_TYPE_OFFER] ++ (toBE 2 udpPort ++ toBE 2 tcpPort)) := by
    simp [encodeOffer]
  have f4 : fieldBytes (encodeOffer udpPort tcpPort) 4 1 =
      [MSG_TYPE_OFFER] := by
    rw [e4]; exact fieldBytes_middle' _ _ _ 4 1 (toBE_length 4 _) rfl
  have e5 : encodeOffer udpPort tcpPort =
      (toBE 4 MAGIC_COOKIE ++ [MSG_TYPE_OFFER]) ++
        (toBE 2 udpPort ++ toBE 2 tcpPort) := by
    simp [encodeOffer]
  have f5 : fieldBytes (encodeOffer udpPort tcpPort) 5 2 =
      toBE 2 udpPort := by
    rw [e5]
    exact fieldBytes_middle' _ _ _ 5 2
      (by simp only [List.length_append, toBE_length, List.length_cons,
        List.length_nil]) (toBE_length 2 _)
  have e7 : encodeOffer udpPort tcpPort =
      (toBE 4 MAGIC_COOKIE ++ [MSG_TYPE_OFFER] ++ toBE 2 udpPort) ++
        (toBE 2 tcpPort ++ []) := by
    simp [encodeOffer]
  have f7 : fieldBytes (encodeOffer udpPort tcpPort) 7 2 =
      toBE 2 tcpPort := by
    rw [e7]
    exact fieldBytes_middle' _ _ _ 7 2
      (by simp only [List.length_append, toBE_length, List.length_cons,
        List.length_nil]) (toBE_length 2 _)
  rw [decodeOffer, if_neg (by omega)]
  rw [f0, f4, readBE_magic, readBE_singleton, if_pos ⟨rfl, rfl⟩, f5, f7,
    hU, hT]

/-! ### Ceiling characterization of the segment count -/

theorem totalSegmentsFor_le_iff (chunkSize fileSize : Nat)
    (hc : 0 < chunkSize) (m : Nat) :
    totalSegmentsFor chunkSize fileSize ≤ m ↔ fileSize ≤ chunkSize * m := by
  rw [totalSegmentsFor, Nat.div_le_iff_le_mul_add_pred hc]
  generalize chunkSize * m = p
  omega

/-! ### TCP Transfer Responder send loop (`server.py` `handle_tcp_connection`)

The send loop `while bytes_sent < file_size: to_send = min(remaining,
CHUNK_SIZE); conn_socket.sendall(dummy_chunk[:to_send])` is modelled as the
list of chunk lengths it writes.  The loop variable is the remaining byte
count; the recursion is fuelled by the initial `file_size`, which bounds the
iteration count whenever the chunk size is positive. -/

def tcpChunksFuel : Nat → Nat → Nat → List Nat
  | 0, _, _ => []
  | fuel + 1, chunkSize, remaining =>
    if remaining = 0 then []
    else min remaining chunkSize ::
      tcpChunksFuel fuel chunkSize (remaining - min remaining chunkSize)

/-- The chunk lengths written by `handle_tcp_connection` for a parsed
non-negative `file_size`. -/
def handle_tcp_send (chunkSize fileSize : Nat) : List Nat :=
  tcpChunksFuel fileSize chunkSize fileSize

theorem tcpChunksFuel_sum (chunkSize : Nat) (hc : 0 < chunkSize) :
    ∀ fuel remaining, remaining ≤ fuel →
      (tcpChunksFuel fuel chunkSize remaining).sum = remaining := by
  intro fuel
  induction fuel with
  | zero => intro remaining h; interval_cases remaining; rfl
  | succ fuel ih =>
    intro remaining h
    by_cases h0 : remaining = 0
    · subst h0; simp [tcpChunksFuel]
    · rw [tcpChunksFuel, if_neg h0, List.sum_cons,
        ih (remaining - min remaining chunkSize) (by omega)]
      omega

theorem tcpChunksFuel_mem (chunkSize : Nat) (hc : 0 < chunkSize) :
    ∀ fuel remaining c, c ∈ tcpChunksFuel fuel chunkSize remaining →
      0 < c ∧ c ≤ chunkSize := by
  intro fuel
  induction fuel with
  | zero => intro remaining c hmem; simp [tcpChunksFuel] at hmem
  | succ fuel ih =>
    intro remaining c hmem
    rw [tcpChunksFuel] at hmem
    by_cases h0 : remaining = 0
    · rw [if_pos h0] at hmem; simp at hmem
    · rw [if_neg h0] at hmem
      rcases List.mem_cons.mp hmem with hc | hc
      · subst hc; constructor <;> omega
      · exact ih _ c hc

/-! ### TCP download worker receive loop (`client.py` `tcp_download_worker`)

`while total_received < file_size: data = s.recv(4096); if not data: break;
total_received += len(data)`.  The incoming stream is modelled as the list
of lengths of the successive `recv` results; a zero-length entry models the
peer closing the connection. -/

def tcpRecvLoop (fileSize : Nat) : List Nat → Nat → Nat
  | [], acc => acc
  | c :: rest, acc =>
    if acc < fileSize then
      if c = 0 then acc else tcpRecvLoop fileSize rest (acc + c)
    else acc

theorem tcpRecvLoop_exact (fileSize : Nat) :
    ∀ chunks acc, (∀ c ∈ chunks, 0 < c) → acc + chunks.sum = fileSize →
      tcpRecvLoop fileSize chunks acc = fileSize := by
  intro chunks
  induction chunks with
  | nil => intro acc _ hsum; simpa [tcpRecvLoop] using hsum
  | cons c rest ih =>
    intro acc hpos hsum
    have hc : 0 < c := hpos c (List.mem_cons_self c rest)
    have hlt : acc < fileSize := by
      have := rest.sum
      simp only [List.sum_cons] at hsum
      omega
    rw [tcpRecvLoop, if_pos hlt, if_neg (by omega)]
    exact ih (acc + c) (fun x hx => hpos x (List.mem_cons_of_mem c hx))
      (by simp only [List.sum_cons] at hsum; omega)

/-! ### TCP request-line parsing (`server.py` `handle_tcp_connection`)

The server reads until the accumulated buffer contains a newline, then runs
`line = data.decode().strip()` followed by `int(line)` — *string*-level
operations.  `str.strip()` with no argument removes leading and trailing
characters for which `str.isspace()` holds: the ASCII whitespace and
separator controls `\t \n \x0b \x0c \r \x1c \x1d \x1e \x1f` and space,
plus NEL `\x85`, NBSP `\xa0`, and the Unicode space/line/paragraph
separators.  Python's `int()` on a `str` ignores the same surrounding
whitespace (none remains after the outer strip), then accepts an optional
`+`/`-` sign and decimal digits — any Unicode category-Nd digit, e.g.
`int('٥') = 5` — optionally separated by single underscores.  Negative
values are accepted by `int()`; they then drive the send loop, which writes
nothing because `bytes_sent < file_size` is false at once. -/

/-- The characters `str.isspace()` holds for and `str.strip()` removes
(equally ignored at the ends by `int()`): Unicode categories Zs, Zl, Zp and
bidirectional classes WS, B, S. -/
def pyWhitespaceChars : List Char :=
  ['\t', '\n', '\x0b', '\x0c', '\r', '\x1c', '\x1d', '\x1e', '\x1f',
   ' ', '\x85', '\xa0', '\u1680', '\u2000', '\u2001', '\u2002',
   '\u2003', '\u2004', '\u2005', '\u2006', '\u2007', '\u2008',
   '\u2009', '\u200a', '\u2028', '\u2029', '\u202f', '\u205f',
   '\u3000']

/-- Whitespace test of `str.strip()` / `int()`. -/
def isPySpace (c : Char) : Bool :=
  pyWhitespaceChars.contains c

/-- Model of `str.strip()` with no argument. -/
def pyStrip (l : List Char) : List Char :=
  ((l.dropWhile isPySpace).reverse.dropWhile isPySpace).reverse

/-- First code points of the runs of ten consecutive decimal digits
(Unicode general category Nd, Unicode 14.0 as in CPython 3.11; later
Unicode versions add a few scripts, e.g. Kawi at 0x11F50 in 15.0);
`int()` accepts exactly these as digits, each contributing its offset in
its run. -/
def pyDigitStarts : List Nat :=
  [0x0030, 0x0660, 0x06F0, 0x07C0, 0x0966, 0x09E6, 0x0A66, 0x0AE6,
   0x0B66, 0x0BE6, 0x0C66, 0x0CE6, 0x0D66, 0x0DE6, 0x0E50, 0x0ED0,
   0x0F20, 0x1040, 0x1090, 0x17E0, 0x1810, 0x1946, 0x19D0, 0x1A80,
   0x1A90, 0x1B50, 0x1BB0, 0x1C40, 0x1C50, 0xA620, 0xA8D0, 0xA900,
   0xA9D0, 0xA9F0, 0xAA50, 0xABF0, 0xFF10, 0x104A0, 0x10D30, 0x11066,
   0x110F0, 0x11136, 0x111D0, 0x112F0, 0x11450, 0x114D0, 0x11650,
   0x116C0, 0x11730, 0x118E0, 0x11950, 0x11C50, 0x11D50, 0x11DA0,
   0x16A60, 0x16AC0, 0x16B50, 0x1D7CE, 0x1D7D8, 0x1D7E2,
   0x1D7EC, 0x1D7F6, 0x1E140, 0x1E2F0, 0x1E950, 0x1FBF0]

/-- Decimal value of a character under `int()`: `some v` when the character
is a Unicode decimal digit of value `v`, otherwise `none`. -/
def pyDigitVal (c : Char) : Option Nat :=
  pyDigitStarts.findSome? fun s =>
    if s ≤ c.toNat ∧ c.toNat < s + 10 then some (c.toNat - s) else none

/-- Digit run of Python's `int()` grammar after the first digit: digits
optionally separated by single underscores (`1_0` is `10`; `1__0` and a
trailing underscore are errors).  `afterUnderscore` is true exactly when the
previous character was an underscore. -/
def pyDigitsGo : List Char → Nat → Bool → Option Nat
  | [], acc, afterUnderscore => if afterUnderscore then none else some acc
  | c :: rest, acc, afterUnderscore =>
    match pyDigitVal c with
    | some d => pyDigitsGo rest (acc * 10 + d) false
    | none =>
      if c = '_' ∧ afterUnderscore = false then pyDigitsGo rest acc true
      else none

/-- Unsigned digit sequence of Python's `int()` grammar: a leading digit
followed by `pyDigitsGo`. -/
def pyDigits : List Char → Option Nat
  | [] => none
  | c :: rest =>
    match pyDigitVal c with
    | some d => pyDigitsGo rest d false
    | none => none

/-- Model of Python's `int()` applied to an already-stripped string: an
optional sign followed by an underscore-separated digit run.  (`int()` also
tolerates surrounding whitespace, but `handle_tcp_connection` strips the
line first, so none remains.) -/
def pyParseInt (l : List Char) : Option Int :=
  match l with
  | [] => none
  | c :: rest =>
    if c = '-' then (pyDigits rest).map fun n => -(n : Int)
    else if c = '+' then (pyDigits rest).map fun n => (n : Int)
    else (pyDigits (c :: rest)).map fun n => (n : Int)

/-- Outcome of one TCP connection on the server: `rejected` is the
`ValueError` branch (log and return before any payload is written);
`aborted` is every path that never reaches the parse — the client closing
before a newline (`recv` returns `b""`) or an exception such as the
connection-level `socket.timeout` caught by the outer handler — which also
closes the connection with no payload; `completed fileSize chunks` is the
normal branch, recording the parsed request and the chunk lengths the send
loop writes. -/
inductive TcpOutcome where
  | rejected : TcpOutcome
  | aborted : TcpOutcome
  | completed : Int → List Nat → TcpOutcome
deriving DecidableEq, Repr

/-- Model of `handle_tcp_connection` after the newline-terminated buffer
`reqData` has been accumulated: `int(data.decode().strip())`, then the
chunked send loop (which writes nothing when the parsed size is ≤ 0). -/
def handle_tcp_connection (chunkSize : Nat) (reqData : List Char) :
    TcpOutcome :=
  match pyParseInt (pyStrip reqData) with
  | none => .rejected
  | some n => .completed n (handle_tcp_send chunkSize n.toNat)

/-- Total payload bytes an outcome writes to the connection. -/
def TcpOutcome.bytesSent : TcpOutcome → Nat
  | .rejected => 0
  | .aborted => 0
  | .completed _ chunks => chunks.sum

/-- One observation of the read loop's `conn_socket.recv(1024)`: a chunk of
decoded bytes, the peer closing the connection (`recv` returned `b""`), or
the 5-second connection timeout raising `socket.timeout`. -/
inductive RecvOutcome where
  | data : List Char → RecvOutcome
  | closed : RecvOutcome
  | timedOut : RecvOutcome
deriving DecidableEq, Repr

/-- The read loop of `handle_tcp_connection`: accumulate `recv` chunks
until the buffer contains a newline (`some buffer`); a closed connection
returns early and a timeout propagates to the outer `except` — both yield
no request line (`none`).  An exhausted observation list likewise ends the
session with no line. -/
def readRequestLine : List RecvOutcome → List Char → Option (List Char)
  | [], _ => none
  | RecvOutcome.closed :: _, _ => none
  | RecvOutcome.timedOut :: _, _ => none
  | RecvOutcome.data d :: rest, acc =>
    if '\n' ∈ acc ++ d then some (acc ++ d)
    else readRequestLine rest (acc ++ d)

/-- Whole-connection behaviour of the server's TCP responder: read until a
newline, then parse and serve; any session that never observes a newline is
aborted with no payload. -/
def tcpResponder (chunkSize : Nat) (events : List RecvOutcome) :
    TcpOutcome :=
  match readRequestLine events [] with
  | none => TcpOutcome.aborted
  | some reqData => handle_tcp_connection chunkSize reqData

/-! ### UDP download worker (`client.py` `udp_download_worker`)

The receive loop is modelled as a fold over the list of datagrams the
worker's socket delivers before the inactivity timeout fires.  Each valid
Payload segment adds its payload length to `total_bytes_received`, records
`total_segments` from the first valid segment only, and inserts its
`segment_index` into the set `received_segments`. -/

structure UdpWorkerState where
  totalSegments : Option Nat
  receivedSegments : Finset Nat
  totalBytesReceived : Nat
deriving DecidableEq

/-- Initial worker state: `total_segments = None`,
`received_segments = set()`, `total_bytes_received = 0`. -/
def udpInitState : UdpWorkerState := ⟨none, ∅, 0⟩

/-- One iteration of the receive loop on one datagram: invalid datagrams
(`continue`) leave the state unchanged. -/
def udpStep (st : UdpWorkerState) (data : List Nat) : UdpWorkerState :=
  match decodePayload data with
  | none => st
  | some (totalSeg, currentSeg, payload) =>
    { totalSegments :=
        match st.totalSegments with
        | none => some totalSeg
        | some t => some t
      receivedSegments := insert currentSeg st.receivedSegments
      totalBytesReceived := st.totalBytesReceived + payload.length }

/-- The worker state after the receive loop has consumed `datagrams`. -/
def udpRecvAll (datagrams : List (List Nat)) : UdpWorkerState :=
  datagrams.foldl udpStep udpInitState

/-- Post-loop adjustment `if total_segments is None: total_segments = 0`. -/
def UdpWorkerState.finalTotalSegments (st : UdpWorkerState) : Nat :=
  st.totalSegments.getD 0

/-- The fraction of distinct segment indices received, the quantity the spec
calls the delivery ratio (0 when `total_segments` is 0). -/
def deliveryFraction (st : UdpWorkerState) : ℚ :=
  if 0 < st.finalTotalSegments then
    (st.receivedSegments.card : ℚ) / st.finalTotalSegments
  else 0

/-- `success_percentage = (100.0 * received_count / total_segments) if
total_segments > 0 else 0.0`. -/
def successPercentage (st : UdpWorkerState) : ℚ :=
  if 0 < st.finalTotalSegments then
    100 * st.receivedSegments.card / st.finalTotalSegments
  else 0

/-! ### Throughput computation (both workers)

`speed_bps = (bytes * 8) / duration if duration > 0 else 0`, with the
duration modelled as a rational. -/

def speed_bps (bytes : Nat) (duration : ℚ) : ℚ :=
  if 0 < duration then (bytes * 8 : ℚ) / duration else 0

/-- Result tuple `(duration, speed_bps, total_received)` written by
`tcp_download_worker`, given the lengths of the successive `recv` results
delivered by the connection. -/
def tcp_download_worker (fileSize : Nat) (recvChunks : List Nat)
    (duration : ℚ) : ℚ × ℚ × Nat :=
  let totalReceived := tcpRecvLoop fileSize recvChunks 0
  (duration, speed_bps totalReceived duration, totalReceived)

/-- Result tuple `(duration, speed_bps, total_bytes_received,
success_percentage)` written by `udp_download_worker` on its normal path,
given the datagrams its socket delivers. -/
def udp_download_worker (datagrams : List (List Nat)) (duration : ℚ) :
    ℚ × ℚ × Nat × ℚ :=
  let st := udpRecvAll datagrams
  (duration, speed_bps st.totalBytesReceived duration,
    st.totalBytesReceived, successPercentage st)

/-! ### Offer Broadcaster loop (`server.py` `broadcast_offers`)

`while not stop_event.is_set():` build the offer, `try: sendto` (a failure
is only printed), sleep one interval.  The environment is modelled by two
oracles indexed by the tick number: whether the stop event is set when the
loop condition is evaluated, and whether the send at that tick fails.  The
unbounded loop is run under explicit fuel; the returned flag records
whether the loop exited because the stop event was observed. -/

structure BroadcastRun where
  finalTick : Nat
  exitedByStop : Bool
  errorTicks : List Nat
deriving DecidableEq, Repr

def broadcastLoop (stopSet sendFails : Nat → Bool) :
    Nat → Nat → BroadcastRun
  | 0, t => ⟨t, false, []⟩
  | fuel + 1, t =>
    if stopSet t then ⟨t, true, []⟩
    else
      let rest := broadcastLoop stopSet sendFails fuel (t + 1)
      ⟨rest.finalTick, rest.exitedByStop,
        (if sendFails t then [t] else []) ++ rest.errorTicks⟩

/-! ### Worker result slots (`client.py` `main` and the two workers)

Each worker owns one slot of a results list and assigns it exactly once:
`udp_download_worker` writes `(0, 0, 0, 0)` and returns if sending the
request raises, and otherwise writes its computed tuple after the receive
loop; `tcp_download_worker` catches any transfer exception and still writes
its tuple at the end.  A worker is modelled as the list of writes it
performs to its slot. -/

def udpWorkerWrites (sendFails : Bool) (datagrams : List (List Nat))
    (duration : ℚ) : List (ℚ × ℚ × Nat × ℚ) :=
  if sendFails then [(0, 0, 0, 0)]
  else [udp_download_worker datagrams duration]

def tcpWorkerWrites (fileSize : Nat) (recvChunks : List Nat)
    (duration : ℚ) : List (ℚ × ℚ × Nat) :=
  [tcp_download_worker fileSize recvChunks duration]

/-- The `tcp_results` list after `main` has joined all `num_tcp` TCP worker
threads: slot `i` holds the last (only) write of worker `i`, whose
environment is `tcpEnv i`. -/
def tcpResultsAfterJoin (fileSize numTcp : Nat)
    (tcpEnv : Nat → List Nat × ℚ) : List (Option (ℚ × ℚ × Nat)) :=
  (List.range numTcp).map fun i =>
    (tcpWorkerWrites fileSize (tcpEnv i).1 (tcpEnv i).2).getLast?

/-- The `udp_results` list after `main` has joined all `num_udp` UDP worker
threads. -/
def udpResultsAfterJoin (numUdp : Nat)
    (udpEnv : Nat → Bool × List (List Nat) × ℚ) :
    List (Option (ℚ × ℚ × Nat × ℚ)) :=
  (List.range numUdp).map fun i =>
    (udpWorkerWrites (udpEnv i).1 (udpEnv i).2.1 (udpEnv i).2.2).getLast?

/-! ### Helper lemmas about the parsing model -/

theorem dropWhile_append_of_exists (p : Char → Bool) (l1 l2 : List Char)
    (h : ∃ a ∈ l1, p a = false) :
    List.dropWhile p (l1 ++ l2) = List.dropWhile p l1 ++ l2 := by
  induction l1 with
  | nil => rcases h with ⟨a, ha, _⟩; simp at ha
  | cons c l1 ih =>
    by_cases hc : p c
    · have h' : ∃ a ∈ l1, p a = false := by
        rcases h with ⟨a, ha, hpa⟩
        rcases List.mem_cons.mp ha with rfl | ha'
        · rw [hc] at hpa; cases hpa
        · exact ⟨a, ha', hpa⟩
      simp only [List.cons_append, List.dropWhile_cons, hc, if_true]
      exact ih h'
    · simp [List.cons_append, List.dropWhile_cons, hc]

theorem pyDigitVal_newline : pyDigitVal '\n' = none := by decide

theorem pyDigitsGo_newline : ∀ (l : List Char) (acc : Nat)
    (afterUnderscore : Bool), '\n' ∈ l →
      pyDigitsGo l acc afterUnderscore = none := by
  intro l
  induction l with
  | nil => intro acc b h; simp at h
  | cons c rest ih =>
    intro acc b h
    rcases List.mem_cons.mp h with hc | hc
    · rw [← hc, pyDigitsGo, pyDigitVal_newline]
      rw [if_neg]
      intro hcon
      exact absurd hcon.1 (by decide)
    · rw [pyDigitsGo]
      rcases hv : pyDigitVal c with _ | d
      · by_cases hu : c = '_' ∧ b = false
        · rw [if_pos hu]
          exact ih acc true hc
        · rw [if_neg hu]
      · exact ih _ false hc

theorem pyDigits_newline (l : List Char) (h : '\n' ∈ l) :
    pyDigits l = none := by
  cases l with
  | nil => simp at h
  | cons c rest =>
    rw [pyDigits]
    rcases hv : pyDigitVal c with _ | d
    · rfl
    · rcases List.mem_cons.mp h with hc | hc
      · rw [← hc] at hv
        rw [pyDigitVal_newline] at hv
        cases hv
      · exact pyDigitsGo_newline rest d false hc

theorem pyParseInt_newline (l : List Char) (h : '\n' ∈ l) :
    pyParseInt l = none := by
  cases l with
  | nil => simp at h
  | cons c rest =>
    rw [pyParseInt]
    by_cases hminus : c = '-'
    · rw [if_pos hminus]
      have : '\n' ∈ rest := by
        rcases List.mem_cons.mp h with hc | hc
        · rw [hminus] at hc; exact absurd hc (by decide)
        · exact hc
      rw [pyDigits_newline rest this]; rfl
    · rw [if_neg hminus]
      by_cases hplus : c = '+'
      · rw [if_pos hplus]
        have : '\n' ∈ rest := by
          rcases List.mem_cons.mp h with hc | hc
          · rw [hplus] at hc; exact absurd hc (by decide)
          · exact hc
        rw [pyDigits_newline rest this]; rfl
      · rw [if_neg hplus, pyDigits_newline (c :: rest) h]; rfl

theorem newline_mem_pyStrip (pre post : List Char)
    (hpre : ∃ a ∈ pre, isPySpace a = false)
    (hpost : ∃ b ∈ post, isPySpace b = false) :
    '\n' ∈ pyStrip (pre ++ '\n' :: post) := by
  rw [pyStrip, dropWhile_append_of_exists isPySpace pre ('\n' :: post) hpre]
  rw [List.mem_reverse]
  have hrev : (List.dropWhile isPySpace pre ++ '\n' :: post).reverse =
      post.reverse ++ ('\n' :: (List.dropWhile isPySpace pre).reverse) := by
    simp
  rw [hrev, dropWhile_append_of_exists isPySpace post.reverse _
    (by rcases hpost with ⟨b, hb, hpb⟩
        exact ⟨b, List.mem_reverse.mpr hb, hpb⟩)]
  exact List.mem_append_right _ (List.mem_cons_self _ _)

/-! ### Helper lemmas about the UDP worker fold -/

theorem foldl_udpStep_totalSegments_some :
    ∀ (ds : List (List Nat)) (t : Nat) (s : Finset Nat) (b : Nat),
      (List.foldl udpStep ⟨some t, s, b⟩ ds).totalSegments = some t := by
  intro ds
  induction ds with
  | nil => intro t s b; rfl
  | cons d ds ih =>
    intro t s b
    rw [List.foldl_cons]
    rcases hd : decodePayload d with _ | ⟨tot, cur, payload⟩
    · simpa [udpStep, hd] using ih t s b
    · simpa [udpStep, hd] using ih t _ _

theorem foldl_udpStep_totalSegments_none :
    ∀ (ds : List (List Nat)) (s : Finset Nat) (b : Nat),
      (List.foldl udpStep ⟨none, s, b⟩ ds).totalSegments =
        ((ds.filterMap decodePayload).head?).map (fun x => x.1) := by
  intro ds
  induction ds with
  | nil => intro s b; rfl
  | cons d ds ih =>
    intro s b
    rw [List.foldl_cons]
    rcases hd : decodePayload d with _ | ⟨tot, cur, payload⟩
    · rw [List.filterMap_cons_none hd]
      simpa [udpStep, hd] using ih s b
    · rw [List.filterMap_cons_some hd]
      simpa [udpStep, hd] using foldl_udpStep_totalSegments_some ds tot _ _

theorem foldl_udpStep_receivedSegments :
    ∀ (ds : List (List Nat)) (st : UdpWorkerState),
      (List.foldl udpStep st ds).receivedSegments =
        st.receivedSegments ∪
          ((ds.filterMap decodePayload).map (fun x => x.2.1)).toFinset := by
  intro ds
  induction ds with
  | nil => intro st; simp
  | cons d ds ih =>
    intro st
    rw [List.foldl_cons]
    rcases hd : decodePayload d with _ | ⟨tot, cur, payload⟩
    · rw [List.filterMap_cons_none hd, udpStep, hd]
      exact ih st
    · rw [List.filterMap_cons_some hd, udpStep, hd]
      show (List.foldl udpStep _ ds).receivedSegments = _
      rw [ih]
      show insert cur st.receivedSegments ∪ _ = _
      rw [Finset.insert_union, List.map_cons, List.toFinset_cons,
        Finset.union_insert]

theorem handle_udp_request_length (chunkSize fileSize : Nat) :
    (handle_udp_request chunkSize fileSize).length =
      totalSegmentsFor chunkSize fileSize := by
  simp [handle_udp_request]

theorem handle_udp_request_getD (chunkSize fileSize : Nat)
    (hc : 0 < chunkSize) (hf : fileSize < 2 ^ 64) (i : Nat)
    (hi : i < totalSegmentsFor chunkSize fileSize) :
    decodePayload ((handle_udp_request chunkSize fileSize).getD i []) =
      some (totalSegmentsFor chunkSize fileSize, i,
        List.replicate (min chunkSize (fileSize - i * chunkSize)) 66) := by
  have hlen := handle_udp_request_length chunkSize fileSize
  have hi' : i < (handle_udp_request chunkSize fileSize).length := by
    rw [hlen]; exact hi
  have hget : (handle_udp_request chunkSize fileSize).getD i [] =
      encodePayload (totalSegmentsFor chunkSize fileSize) i
        (List.replicate (min chunkSize (fileSize - i * chunkSize)) 66) := by
    rw [List.getD_eq_getElem _ _ hi']
    simp [handle_udp_request]
  rw [hget]
  have htot : totalSegmentsFor chunkSize fileSize ≤ fileSize :=
    (totalSegmentsFor_le_iff chunkSize fileSize hc fileSize).mpr
      (Nat.le_mul_of_pos_left fileSize hc)
  exact decodePayload_encodePayload _ _ _ (lt_of_le_of_lt htot hf)
    (lt_of_lt_of_le hi (le_trans htot (le_of_lt hf)))

/-- C1: for every requested `file_size ≥ 0` and segment size `> 0`, the UDP
responder computes `total_segments = ceil(file_size / segment_size)` (stated
by the Galois characterization of the ceiling) and sends exactly one
datagram per `segment_index` in `[0, total_segments)`, each decoding back to
`total_segments`, that index, and a payload of length
`min(segment_size, file_size - segment_index*segment_size)`; in particular
`file_size = 2500`, `segment_size = 1024` gives 3 segments with final
payload length 452. -/
theorem C1_udp_segmentation (chunkSize fileSize : Nat) (hc : 0 < chunkSize)
    (hf : fileSize < 2 ^ 64) :
    (handle_udp_request chunkSize fileSize).length =
      totalSegmentsFor chunkSize fileSize
    ∧ (∀ m, totalSegmentsFor chunkSize fileSize ≤ m ↔
        fileSize ≤ chunkSize * m)
    ∧ (∀ i, i < totalSegmentsFor chunkSize fileSize →
        decodePayload ((handle_udp_request chunkSize fileSize).getD i []) =
          some (totalSegmentsFor chunkSize fileSize, i,
            List.replicate (min chunkSize (fileSize - i * chunkSize)) 66))
    ∧ (handle_udp_request 1024 2500).length = 3
    ∧ decodePayload ((handle_udp_request 1024 2500).getD 2 []) =
        some (3, 2, List.replicate 452 66) := by
  refine ⟨handle_udp_request_length chunkSize fileSize,
    totalSegmentsFor_le_iff chunkSize fileSize hc,
    fun i hi => handle_udp_request_getD chunkSize fileSize hc hf i hi,
    ?_, ?_⟩
  · rw [handle_udp_request_length]
    norm_num [totalSegmentsFor]
  · have h := handle_udp_request_getD 1024 2500 (by norm_num) (by norm_num)
      2 (by norm_num [totalSegmentsFor])
    norm_num [totalSegmentsFor] at h
    exact h

theorem C1_udp_segmentation_witness :
    0 < 1024 ∧ 2500 < 2 ^ 64 ∧
      decodePayload ((handle_udp_request 1024 2500).getD 2 []) =
        some (3, 2, List.replicate 452 66) :=
  ⟨by norm_num, by norm_num,
    (C1_udp_segmentation 1024 2500 (by norm_num) (by norm_num)).2.2.2.2⟩

/-- C2: for every non-negative requested `file_size`, the TCP responder's
send loop writes chunks that are positive, bounded by `CHUNK_SIZE`, and sum
to exactly `file_size`; and a TCP worker whose connection delivers exactly
`file_size` bytes (in any positive-size read granularity) counts exactly
`file_size` received bytes — in particular against the responder's own
chunk sequence. -/
theorem C2_tcp_exact_transfer (chunkSize fileSize : Nat)
    (hc : 0 < chunkSize) :
    (handle_tcp_send chunkSize fileSize).sum = fileSize
    ∧ (∀ c ∈ handle_tcp_send chunkSize fileSize, 0 < c ∧ c ≤ chunkSize)
    ∧ (∀ chunks : List Nat, (∀ c ∈ chunks, 0 < c) → chunks.sum = fileSize →
        tcpRecvLoop fileSize chunks 0 = fileSize)
    ∧ tcpRecvLoop fileSize (handle_tcp_send chunkSize fileSize) 0 =
        fileSize := by
  have h1 : (handle_tcp_send chunkSize fileSize).sum = fileSize :=
    tcpChunksFuel_sum chunkSize hc fileSize fileSize le_rfl
  have h2 : ∀ c ∈ handle_tcp_send chunkSize fileSize, 0 < c ∧ c ≤ chunkSize :=
    fun c hm => tcpChunksFuel_mem chunkSize hc fileSize fileSize c hm
  have h3 : ∀ chunks : List Nat, (∀ c ∈ chunks, 0 < c) →
      chunks.sum = fileSize → tcpRecvLoop fileSize chunks 0 = fileSize :=
    fun chunks hp hs => tcpRecvLoop_exact fileSize chunks 0 hp (by omega)
  exact ⟨h1, h2, h3, h3 _ (fun c hm => (h2 c hm).1) h1⟩

theorem C2_tcp_exact_transfer_witness :
    0 < 1024 ∧ (handle_tcp_send 1024 2500).sum = 2500 ∧
      tcpRecvLoop 2500 (handle_tcp_send 1024 2500) 0 = 2500 :=
  ⟨by norm_num, (C2_tcp_exact_transfer 1024 2500 (by norm_num)).1,
    (C2_tcp_exact_transfer 1024 2500 (by norm_num)).2.2.2⟩

/-- C3 counterexample: the request line `"-5\n"` is not a valid non-negative
decimal integer, yet `int()` parses it successfully, so the responder takes
the normal branch (`completed`) instead of the `ValueError` rejection branch
— the claim that a negative integer request is rejected is false (the send
loop then writes zero payload bytes, but no `MalformedRequest` is
signalled). -/
theorem C3_negative_accepted_counterexample :
    pyParseInt (pyStrip ['-', '5', '\n']) = some (-5)
    ∧ handle_tcp_connection 1024 ['-', '5', '\n'] =
        TcpOutcome.completed (-5) []
    ∧ handle_tcp_connection 1024 ['-', '5', '\n'] ≠ TcpOutcome.rejected := by
  refine ⟨?_, ?_, ?_⟩ <;> decide

/-- C3 (amended): if the connection never yields a newline-terminated line
(timeout, disconnect, or the observations running out), the responder
aborts and closes without sending any payload; if the stripped request line
fails Python's `int()` parsing — whose accepted set is an optional sign and
underscore-separated Unicode decimal digits, larger than plain non-negative
ASCII decimals — the responder rejects the connection (the `ValueError`
branch) without sending any payload; a line parsing to a negative integer,
however, is accepted and simply drives the send loop to write zero payload
bytes. -/
theorem C3_tcp_malformed_amended (chunkSize : Nat)
    (events : List RecvOutcome) (reqData : List Char) :
    (readRequestLine events [] = none →
      tcpResponder chunkSize events = TcpOutcome.aborted
        ∧ (tcpResponder chunkSize events).bytesSent = 0)
    ∧ (pyParseInt (pyStrip reqData) = none →
        handle_tcp_connection chunkSize reqData = TcpOutcome.rejected
          ∧ (handle_tcp_connection chunkSize reqData).bytesSent = 0)
    ∧ (∀ n : Int, pyParseInt (pyStrip reqData) = some n → n < 0 →
        handle_tcp_connection chunkSize reqData = TcpOutcome.completed n []
          ∧ (handle_tcp_connection chunkSize reqData).bytesSent = 0) := by
  refine ⟨?_, ?_, ?_⟩
  · intro h
    rw [tcpResponder, h]
    exact ⟨rfl, rfl⟩
  · intro h
    rw [handle_tcp_connection, h]
    exact ⟨rfl, rfl⟩
  · intro n hp hn
    have ht : n.toNat = 0 := Int.toNat_of_nonpos (le_of_lt hn)
    rw [handle_tcp_connection, hp]
    dsimp only
    rw [ht]
    exact ⟨rfl, rfl⟩

theorem C3_tcp_malformed_amended_witness :
    readRequestLine [RecvOutcome.timedOut] [] = none
    ∧ tcpResponder 1024 [RecvOutcome.timedOut] = TcpOutcome.aborted
    ∧ pyParseInt (pyStrip ['a', '\n']) = none
    ∧ handle_tcp_connection 1024 ['a', '\n'] = TcpOutcome.rejected
    ∧ pyParseInt (pyStrip ['-', '7', '\n']) = some (-7)
    ∧ handle_tcp_connection 1024 ['-', '7', '\n'] =
        TcpOutcome.completed (-7) [] :=
  ⟨rfl,
   ((C3_tcp_malformed_amended 1024 [RecvOutcome.timedOut] ['a', '\n']).1
     rfl).1,
   by decide,
   ((C3_tcp_malformed_amended 1024 [RecvOutcome.timedOut]
       ['a', '\n']).2.1 (by decide)).1,
   by decide,
   ((C3_tcp_malformed_amended 1024 [RecvOutcome.timedOut]
       ['-', '7', '\n']).2.2 (-7) (by decide) (by decide)).1⟩

/-- C4: every decoder is total and defensive — a buffer shorter than the
minimum length for its message type, or whose magic field differs from
`0xABCDDCBA`, or whose type byte is not the expected tag, decodes to `none`
for each of the three receive paths, and an invalid datagram leaves the UDP
worker's receive-loop state unchanged (the loop just continues). -/
theorem C4_decode_defensive (data : List Nat) :
    ((data.length < 9 ∨ readBE (fieldBytes data 0 4) ≠ MAGIC_COOKIE ∨
        readBE (fieldBytes data 4 1) ≠ MSG_TYPE_OFFER) →
      decodeOffer data = none)
    ∧ ((data.length < 13 ∨ readBE (fieldBytes data 0 4) ≠ MAGIC_COOKIE ∨
        readBE (fieldBytes data 4 1) ≠ MSG_TYPE_REQUEST) →
      decodeRequest data = none)
    ∧ ((data.length < 21 ∨ readBE (fieldBytes data 0 4) ≠ MAGIC_COOKIE ∨
        readBE (fieldBytes data 4 1) ≠ MSG_TYPE_PAYLOAD) →
      decodePayload data = none)
    ∧ (∀ st : UdpWorkerState, decodePayload data = none →
        udpStep st data = st) := by
  refine ⟨?_, ?_, ?_, ?_⟩
  · intro h
    rw [decodeOffer]
    split_ifs with h1 h2
    · rfl
    · rcases h with h | h | h
      · omega
      · exact absurd h2.1 h
      · exact absurd h2.2 h
    · rfl
  · intro h
    rw [decodeRequest]
    split_ifs with h1 h2
    · rfl
    · rcases h with h | h | h
      · omega
      · exact absurd h2.1 h
      · exact absurd h2.2 h
    · rfl
  · intro h
    rw [decodePayload]
    split_ifs with h1 h2
    · rfl
    · rcases h with h | h | h
      · omega
      · exact absurd h2.1 h
      · exact absurd h2.2 h
    · rfl
  · intro st h
    simp [udpStep, h]

theorem C4_decode_defensive_witness :
    ([1, 2, 3] : List Nat).length < 9
    ∧ decodeOffer [1, 2, 3] = none
    ∧ decodeRequest [1, 2, 3] = none
    ∧ decodePayload [1, 2, 3] = none
    ∧ udpStep udpInitState [1, 2, 3] = udpInitState :=
  ⟨by decide, (C4_decode_defensive [1, 2, 3]).1 (Or.inl (by decide)),
   (C4_decode_defensive [1, 2, 3]).2.1 (Or.inl (by decide)),
   (C4_decode_defensive [1, 2, 3]).2.2.1 (Or.inl (by decide)),
   (C4_decode_defensive [1, 2, 3]).2.2.2 udpInitState
     ((C4_decode_defensive [1, 2, 3]).2.2.1 (Or.inl (by decide)))⟩

/-- C10 counterexample: the buffer `"5\n\n"` has a byte after the
terminating newline, yet the responder accepts it: `strip()` removes the
trailing whitespace, `int()` succeeds, and 5 payload bytes are sent — so
"any bytes after the newline are rejected" is false when the extra bytes
are whitespace. -/
theorem C10_whitespace_tail_counterexample :
    handle_tcp_connection 1024 ['5', '\n', '\n'] =
      TcpOutcome.completed 5 [5]
    ∧ handle_tcp_connection 1024 ['5', '\n', '\n'] ≠ TcpOutcome.rejected := by
  constructor <;> decide

/-- C10 (amended): the responder parses the entire buffer, not only the
prefix before the newline; whenever a non-whitespace byte precedes the
newline and a non-whitespace byte follows it, the stripped line retains an
embedded newline, `int()` fails, and the connection is rejected without
payload.  (Extra bytes that are all whitespace are stripped and the request
is accepted instead.) -/
theorem C10_tail_bytes_amended (chunkSize : Nat) (pre post : List Char)
    (hpre : ∃ a ∈ pre, isPySpace a = false)
    (hpost : ∃ b ∈ post, isPySpace b = false) :
    handle_tcp_connection chunkSize (pre ++ '\n' :: post) =
      TcpOutcome.rejected := by
  rw [handle_tcp_connection,
    pyParseInt_newline _ (newline_mem_pyStrip pre post hpre hpost)]

theorem C10_tail_bytes_amended_witness :
    (∃ a ∈ ['5'], isPySpace a = false)
    ∧ (∃ b ∈ ['x'], isPySpace b = false)
    ∧ handle_tcp_connection 1024 (['5'] ++ '\n' :: ['x']) =
        TcpOutcome.rejected :=
  ⟨by decide, by decide,
    C10_tail_bytes_amended 1024 ['5'] ['x'] (by decide) (by decide)⟩

/-- C5: the UDP worker records `total_segments` from the first valid
Payload segment (none means it stays unset, later reported as 0),
accumulates segment indices as the set of indices of all valid segments
(duplicates collapse), and reports a success value of
`100 * |received_indices| / total_segments` — i.e. 100 times the delivery
fraction — and 0 (not a crash or an undefined value) when no valid segment
was seen. -/
theorem C5_udp_worker_accounting (datagrams : List (List Nat)) :
    (udpRecvAll datagrams).totalSegments =
      ((datagrams.filterMap decodePayload).head?).map (fun x => x.1)
    ∧ (udpRecvAll datagrams).receivedSegments =
      ((datagrams.filterMap decodePayload).map (fun x => x.2.1)).toFinset
    ∧ (datagrams.filterMap decodePayload = [] →
        successPercentage (udpRecvAll datagrams) = 0)
    ∧ successPercentage (udpRecvAll datagrams) =
        100 * deliveryFraction (udpRecvAll datagrams)
    ∧ (0 < (udpRecvAll datagrams).finalTotalSegments →
        deliveryFraction (udpRecvAll datagrams) =
          ((udpRecvAll datagrams).receivedSegments.card : ℚ) /
            ((udpRecvAll datagrams).finalTotalSegments : ℚ)) := by
  have h1 : (udpRecvAll datagrams).totalSegments =
      ((datagrams.filterMap decodePayload).head?).map (fun x => x.1) :=
    foldl_udpStep_totalSegments_none datagrams ∅ 0
  refine ⟨h1, ?_, ?_, ?_, ?_⟩
  · have h2 := foldl_udpStep_receivedSegments datagrams udpInitState
    rw [show (udpRecvAll datagrams).receivedSegments =
      (List.foldl udpStep udpInitState datagrams).receivedSegments from rfl,
      h2]
    exact Finset.empty_union _
  · intro h
    have hnone : (udpRecvAll datagrams).totalSegments = none := by
      rw [h1, h]; rfl
    have hf : (udpRecvAll datagrams).finalTotalSegments = 0 := by
      rw [UdpWorkerState.finalTotalSegments, hnone]; rfl
    rw [successPercentage, hf]
    norm_num
  · rw [successPercentage, deliveryFraction]
    split_ifs with h
    · rw [mul_div_assoc]
    · rw [mul_zero]
  · intro h
    rw [deliveryFraction, if_pos h]

theorem C5_udp_worker_accounting_witness :
    ([] : List (List Nat)).filterMap decodePayload = []
    ∧ successPercentage (udpRecvAll []) = 0
    ∧ 0 < (udpRecvAll [encodePayload 3 1 []]).finalTotalSegments
    ∧ deliveryFraction (udpRecvAll [encodePayload 3 1 []]) =
        ((udpRecvAll [encodePayload 3 1 []]).receivedSegments.card : ℚ) /
          ((udpRecvAll [encodePayload 3 1 []]).finalTotalSegments : ℚ) :=
  ⟨rfl, (C5_udp_worker_accounting []).2.2.1 rfl, by decide,
   (C5_udp_worker_accounting [encodePayload 3 1 []]).2.2.2.2 (by decide)⟩

/-- C6: for both workers, the reported throughput field equals
`bytes_received * 8 / duration` when the duration is positive and is 0 when
the duration is 0 — the guard `if duration > 0 else 0` prevents division by
zero, and zero received bytes give zero throughput for any duration. -/
theorem C6_throughput_guard (fileSize : Nat) (recvChunks : List Nat)
    (datagrams : List (List Nat)) (duration : ℚ) :
    (0 < duration →
      (tcp_download_worker fileSize recvChunks duration).2.1 =
        (tcpRecvLoop fileSize recvChunks 0 : ℚ) * 8 / duration)
    ∧ (duration = 0 →
        (tcp_download_worker fileSize recvChunks duration).2.1 = 0)
    ∧ (0 < duration →
        (udp_download_worker datagrams duration).2.1 =
          ((udpRecvAll datagrams).totalBytesReceived : ℚ) * 8 / duration)
    ∧ (duration = 0 → (udp_download_worker datagrams duration).2.1 = 0)
    ∧ (∀ d : ℚ, speed_bps 0 d = 0) := by
  refine ⟨?_, ?_, ?_, ?_, ?_⟩
  · intro h
    show speed_bps (tcpRecvLoop fileSize recvChunks 0) duration = _
    rw [speed_bps, if_pos h]
  · intro h
    show speed_bps (tcpRecvLoop fileSize recvChunks 0) duration = 0
    rw [h, speed_bps]
    norm_num
  · intro h
    show speed_bps (udpRecvAll datagrams).totalBytesReceived duration = _
    rw [speed_bps, if_pos h]
  · intro h
    show speed_bps (udpRecvAll datagrams).totalBytesReceived duration = 0
    rw [h, speed_bps]
    norm_num
  · intro d
    rw [speed_bps]
    split_ifs
    · norm_num
    · rfl

theorem C6_throughput_guard_witness :
    (0 : ℚ) < 2
    ∧ (tcp_download_worker 0 [] 2).2.1 = (tcpRecvLoop 0 [] 0 : ℚ) * 8 / 2
    ∧ (tcp_download_worker 0 [] 0).2.1 = 0
    ∧ (udp_download_worker [] 2).2.1 =
        ((udpRecvAll []).totalBytesReceived : ℚ) * 8 / 2
    ∧ (udp_download_worker [] 0).2.1 = 0
    ∧ speed_bps 0 2 = 0 :=
  ⟨by norm_num,
   (C6_throughput_guard 0 [] [] 2).1 (by norm_num),
   (C6_throughput_guard 0 [] [] 0).2.1 rfl,
   (C6_throughput_guard 0 [] [] 2).2.2.1 (by norm_num),
   (C6_throughput_guard 0 [] [] 0).2.2.2.1 rfl,
   (C6_throughput_guard 0 [] [] 2).2.2.2.2 2⟩

/-- C7: for every pair of 16-bit port numbers, decoding the Offer packet
built by the Broadcaster returns exactly the advertised UDP and TCP ports,
in that order. -/
theorem C7_offer_roundtrip (udpPort tcpPort : Nat)
    (hu : udpPort < 2 ^ 16) (ht : tcpPort < 2 ^ 16) :
    decodeOffer (encodeOffer udpPort tcpPort) = some (udpPort, tcpPort) :=
  decodeOffer_encodeOffer udpPort tcpPort hu ht

theorem C7_offer_roundtrip_witness :
    2025 < 2 ^ 16 ∧ 2026 < 2 ^ 16 ∧
      decodeOffer (encodeOffer 2025 2026) = some (2025, 2026) :=
  ⟨by norm_num, by norm_num,
    C7_offer_roundtrip 2025 2026 (by norm_num) (by norm_num)⟩

theorem broadcastLoop_sendFails_irrelevant (stopSet f1 f2 : Nat → Bool) :
    ∀ fuel t, (broadcastLoop stopSet f1 fuel t).finalTick =
        (broadcastLoop stopSet f2 fuel t).finalTick
      ∧ (broadcastLoop stopSet f1 fuel t).exitedByStop =
        (broadcastLoop stopSet f2 fuel t).exitedByStop := by
  intro fuel
  induction fuel with
  | zero => intro t; exact ⟨rfl, rfl⟩
  | succ fuel ih =>
    intro t
    by_cases h : stopSet t
    · simp [broadcastLoop, h]
    · constructor
      · simpa [broadcastLoop, h] using (ih (t + 1)).1
      · simpa [broadcastLoop, h] using (ih (t + 1)).2

theorem broadcastLoop_exit_is_stop (stopSet f : Nat → Bool) :
    ∀ fuel t, (broadcastLoop stopSet f fuel t).exitedByStop = true →
      stopSet (broadcastLoop stopSet f fuel t).finalTick = true := by
  intro fuel
  induction fuel with
  | zero => intro t h; simp [broadcastLoop] at h
  | succ fuel ih =>
    intro t h
    by_cases hs : stopSet t
    · simp [broadcastLoop, hs]
    · have h' : (broadcastLoop stopSet f fuel (t + 1)).exitedByStop = true :=
        by simpa [broadcastLoop, hs] using h
      simpa [broadcastLoop, hs] using ih (t + 1) h'

theorem broadcastLoop_no_stop_before (stopSet f : Nat → Bool) :
    ∀ fuel t u, t ≤ u → u < (broadcastLoop stopSet f fuel t).finalTick →
      stopSet u = false := by
  intro fuel
  induction fuel with
  | zero =>
    intro t u h1 h2
    simp [broadcastLoop] at h2
    omega
  | succ fuel ih =>
    intro t u h1 h2
    by_cases hs : stopSet t
    · simp [broadcastLoop, hs] at h2
      omega
    · by_cases ht : u = t
      · subst ht
        exact Bool.eq_false_iff.mpr (fun hh => hs hh)
      · exact ih (t + 1) u (by omega)
          (by simpa [broadcastLoop, hs] using h2)

/-- C8: the Offer Broadcaster's loop is insensitive to send failures — its
tick progression and exit decision are identical for any two send-failure
patterns (errors are only logged) — it exits flagged `exitedByStop` only at
a tick where the cancellation signal is set, and at every tick it passed
through the signal was unset. -/
theorem C8_broadcast_resilient (stopSet f1 f2 : Nat → Bool) (fuel t : Nat) :
    ((broadcastLoop stopSet f1 fuel t).finalTick =
        (broadcastLoop stopSet f2 fuel t).finalTick
      ∧ (broadcastLoop stopSet f1 fuel t).exitedByStop =
        (broadcastLoop stopSet f2 fuel t).exitedByStop)
    ∧ ((broadcastLoop stopSet f1 fuel t).exitedByStop = true →
        stopSet (broadcastLoop stopSet f1 fuel t).finalTick = true)
    ∧ (∀ u, t ≤ u → u < (broadcastLoop stopSet f1 fuel t).finalTick →
        stopSet u = false) :=
  ⟨broadcastLoop_sendFails_irrelevant stopSet f1 f2 fuel t,
   broadcastLoop_exit_is_stop stopSet f1 fuel t,
   fun u h1 h2 => broadcastLoop_no_stop_before stopSet f1 fuel t u h1 h2⟩

theorem C8_broadcast_resilient_witness :
    (broadcastLoop (fun n => n == 3) (fun _ => true) 10 0).finalTick =
      (broadcastLoop (fun n => n == 3) (fun _ => false) 10 0).finalTick
    ∧ ((broadcastLoop (fun n => n == 3) (fun _ => true) 10 0).finalTick
        == 3) = true
    ∧ ((1 : Nat) == 3) = false :=
  ⟨(C8_broadcast_resilient (fun n => n == 3) (fun _ => true)
      (fun _ => false) 10 0).1.1,
   (C8_broadcast_resilient (fun n => n == 3) (fun _ => true)
      (fun _ => false) 10 0).2.1 (by decide),
   (C8_broadcast_resilient (fun n => n == 3) (fun _ => true)
      (fun _ => false) 10 0).2.2 1 (by omega) (by decide)⟩

/-- C9: every worker writes its result slot exactly once per run on every
path — the TCP worker's single write, the UDP worker's single write on both
the send-failure path (a tuple of zeros) and the normal path — so after the
join the result lists have one entry per spawned worker and every slot is
filled. -/
theorem C9_result_slots (fileSize numTcp numUdp : Nat)
    (tcpEnv : Nat → List Nat × ℚ)
    (udpEnv : Nat → Bool × List (List Nat) × ℚ)
    (sendFails : Bool) (datagrams : List (List Nat))
    (recvChunks : List Nat) (duration : ℚ) :
    (tcpWorkerWrites fileSize recvChunks duration).length = 1
    ∧ (udpWorkerWrites sendFails datagrams duration).length = 1
    ∧ udpWorkerWrites true datagrams duration = [(0, 0, 0, 0)]
    ∧ (tcpResultsAfterJoin fileSize numTcp tcpEnv).length = numTcp
    ∧ (udpResultsAfterJoin numUdp udpEnv).length = numUdp
    ∧ (tcpResultsAfterJoin fileSize numTcp tcpEnv).all
        (fun r => r.isSome) = true
    ∧ (udpResultsAfterJoin numUdp udpEnv).all (fun r => r.isSome) = true := by
  refine ⟨rfl, ?_, rfl, ?_, ?_, ?_, ?_⟩
  · rw [udpWorkerWrites]
    split_ifs <;> rfl
  · simp [tcpResultsAfterJoin]
  · simp [udpResultsAfterJoin]
  · rw [List.all_eq_true]
    intro r hr
    simp only [tcpResultsAfterJoin, List.mem_map] at hr
    obtain ⟨i, _, hi⟩ := hr
    rw [← hi]
    rfl
  · rw [List.all_eq_true]
    intro r hr
    simp only [udpResultsAfterJoin, List.mem_map] at hr
    obtain ⟨i, _, hi⟩ := hr
    rw [← hi]
    by_cases hb : (udpEnv i).1 = true
    · simp [udpWorkerWrites, hb]
    · simp [udpWorkerWrites, hb]

end ClientServer
